import Mathlib

/-
Verification of the ImGui.Forms geometry and layout code.

The C++ sources are embedded shallowly:
  - C++ `int` becomes `Int` (the values exercised here are small, far from
    any 32-bit wrap-around);
  - C++ `float` values become `ℚ`: every float computation these theorems
    exercise is exact (small integers, halves and quarters), so exact
    rational arithmetic models it faithfully;
  - `static_cast<int>` on a float is truncation toward zero (`cppTrunc`);
  - `std::min`, `std::max` and `std::clamp` are modelled by the textbook
    conditional definitions the standard library uses;
  - C++ integer division `/` truncates toward zero, hence `Int.tdiv`.

Embedded code: `Rectangle` (include/ImGuiForms/Core/Rectangle.h and
src/Core/Rectangle.cpp), `SizeValue`/`Size` (include/ImGuiForms/Core/Size.h)
and the size-resolution helpers of `Component`
(include/ImGuiForms/Core/Component.h and src/Core/Component.cpp).
-/

namespace ImGuiForms

/-- Truncation of an exact rational value toward zero: the behaviour of the
C++ `static_cast<int>` conversion from a floating-point value. -/
def cppTrunc (q : ℚ) : Int := Int.tdiv q.num q.den

/-- C++ `std::min` on exact float values: `b < a ? b : a`. -/
def stdMinQ (a b : ℚ) : ℚ := if b < a then b else a

/-- C++ `std::min` on `int`. -/
def stdMinInt (a b : Int) : Int := if b < a then b else a

/-- C++ `std::max` on `int`. -/
def stdMaxInt (a b : Int) : Int := if a < b then b else a

/-- C++ `std::clamp` on `int`: `v < lo ? lo : hi < v ? hi : v`. -/
def stdClampInt (v lo hi : Int) : Int := if v < lo then lo else if hi < v then hi else v

/-- C++ `std::clamp` on exact float values. -/
def stdClampQ (v lo hi : ℚ) : ℚ := if v < lo then lo else if hi < v then hi else v

/-- The `Rectangle` struct of include/ImGuiForms/Core/Rectangle.h:
integer position `x`, `y` and extent `width`, `height`. -/
structure Rectangle where
  x : Int
  y : Int
  width : Int
  height : Int
deriving DecidableEq

/-- `Rectangle::IsEmpty`: `width <= 0 || height <= 0`. -/
def Rectangle.IsEmpty (r : Rectangle) : Bool :=
  decide (r.width ≤ 0) || decide (r.height ≤ 0)

/-- `Rectangle::Contains(int, int)`:
`px >= x && px < x + width && py >= y && py < y + height`. -/
def Rectangle.Contains (r : Rectangle) (px py : Int) : Bool :=
  decide (r.x ≤ px) && decide (px < r.x + r.width) &&
    decide (r.y ≤ py) && decide (py < r.y + r.height)

/-- `Rectangle::Union` (src/Core/Rectangle.cpp): an empty receiver returns the
argument, an empty argument returns the receiver, otherwise the bounding box
of both. -/
def Rectangle.Union (r other : Rectangle) : Rectangle :=
  if Rectangle.IsEmpty r then other
  else if Rectangle.IsEmpty other then r
  else
    ⟨min r.x other.x, min r.y other.y,
     max (r.x + r.width) (other.x + other.width) - min r.x other.x,
     max (r.y + r.height) (other.y + other.height) - min r.y other.y⟩

/-- `Rectangle::Intersection` (src/Core/Rectangle.cpp): the overlap box, or the
default rectangle `(0,0,0,0)` when `left >= right || top >= bottom`. -/
def Rectangle.Intersection (r other : Rectangle) : Rectangle :=
  if min (r.x + r.width) (other.x + other.width) ≤ max r.x other.x ∨
      min (r.y + r.height) (other.y + other.height) ≤ max r.y other.y then
    ⟨0, 0, 0, 0⟩
  else
    ⟨max r.x other.x, max r.y other.y,
     min (r.x + r.width) (other.x + other.width) - max r.x other.x,
     min (r.y + r.height) (other.y + other.height) - max r.y other.y⟩

/-- `Rectangle::AspectRatio` (src/Core/Rectangle.cpp): `0` when the height is
`0`, otherwise `width / height`. -/
def Rectangle.AspectRatio (r : Rectangle) : ℚ :=
  if r.height = 0 then 0 else (r.width : ℚ) / (r.height : ℚ)

/-- `Rectangle::FitInside` (src/Core/Rectangle.cpp). Either rectangle empty:
the default rectangle. Aspect ratio not maintained: the container itself.
Otherwise scale to the container on the longer relative axis and centre,
with truncating float-to-int casts and truncating division by 2. -/
def Rectangle.FitInside (r container : Rectangle) (maintainAspectRatio : Bool) : Rectangle :=
  if Rectangle.IsEmpty container || Rectangle.IsEmpty r then ⟨0, 0, 0, 0⟩
  else if !maintainAspectRatio then container
  else if Rectangle.AspectRatio container < Rectangle.AspectRatio r then
    ⟨container.x + Int.tdiv (container.width - container.width) 2,
     container.y +
       Int.tdiv (container.height - cppTrunc ((container.width : ℚ) / Rectangle.AspectRatio r)) 2,
     container.width,
     cppTrunc ((container.width : ℚ) / Rectangle.AspectRatio r)⟩
  else
    ⟨container.x + Int.tdiv (container.width - cppTrunc ((container.height : ℚ) * Rectangle.AspectRatio r)) 2,
     container.y + Int.tdiv (container.height - container.height) 2,
     cppTrunc ((container.height : ℚ) * Rectangle.AspectRatio r),
     container.height⟩

/-- `Rectangle::ClampTo` (src/Core/Rectangle.cpp): clamp the position into
`[bounds.pos, bounds.pos + bounds.extent - extent]` per axis and take the
minimum of the extents. -/
def Rectangle.ClampTo (r bounds : Rectangle) : Rectangle :=
  ⟨stdClampInt r.x bounds.x (bounds.x + bounds.width - r.width),
   stdClampInt r.y bounds.y (bounds.y + bounds.height - r.height),
   stdMinInt r.width bounds.width,
   stdMinInt r.height bounds.height⟩

/-- The loop body of `Rectangle::SubdivideHorizontal`: walk the ratio list
keeping the running `currentX`; every band but the last has the truncated
proportional width, the last band runs to the right edge `x + width`. -/
def Rectangle.subdivideHGo (r : Rectangle) (total : ℚ) : Int → List ℚ → List Rectangle
  | _, [] => []
  | cx, [_] => [⟨cx, r.y, r.x + r.width - cx, r.height⟩]
  | cx, q :: q2 :: rest =>
    ⟨cx, r.y, cppTrunc ((r.width : ℚ) * (q / total)), r.height⟩ ::
      Rectangle.subdivideHGo r total (cx + cppTrunc ((r.width : ℚ) * (q / total))) (q2 :: rest)

/-- `Rectangle::SubdivideHorizontal` (src/Core/Rectangle.cpp): empty ratio
list or non-positive ratio total give an empty result, otherwise the band
walk starting at `x`. -/
def Rectangle.SubdivideHorizontal (r : Rectangle) (ratios : List ℚ) : List Rectangle :=
  if ratios = [] then []
  else if List.foldl (· + ·) (0 : ℚ) ratios ≤ 0 then []
  else Rectangle.subdivideHGo r (List.foldl (· + ·) (0 : ℚ) ratios) r.x ratios

/-- The loop body of `Rectangle::SubdivideVertical`, the vertical mirror of
`Rectangle.subdivideHGo`. -/
def Rectangle.subdivideVGo (r : Rectangle) (total : ℚ) : Int → List ℚ → List Rectangle
  | _, [] => []
  | cy, [_] => [⟨r.x, cy, r.width, r.y + r.height - cy⟩]
  | cy, q :: q2 :: rest =>
    ⟨r.x, cy, r.width, cppTrunc ((r.height : ℚ) * (q / total))⟩ ::
      Rectangle.subdivideVGo r total (cy + cppTrunc ((r.height : ℚ) * (q / total))) (q2 :: rest)

/-- `Rectangle::SubdivideVertical` (src/Core/Rectangle.cpp). -/
def Rectangle.SubdivideVertical (r : Rectangle) (ratios : List ℚ) : List Rectangle :=
  if ratios = [] then []
  else if List.foldl (· + ·) (0 : ℚ) ratios ≤ 0 then []
  else Rectangle.subdivideVGo r (List.foldl (· + ·) (0 : ℚ) ratios) r.y ratios

/-- `Rectangle::CreateGrid` (src/Core/Rectangle.cpp): out-of-range or
non-positive grid parameters give the default rectangle, otherwise the cell
at `(row, col)` with truncating integer division for the cell extents. -/
def Rectangle.CreateGrid (r : Rectangle) (row col rows cols spacing : Int) : Rectangle :=
  if rows ≤ 0 ∨ cols ≤ 0 ∨ row < 0 ∨ col < 0 ∨ rows ≤ row ∨ cols ≤ col then ⟨0, 0, 0, 0⟩
  else
    ⟨r.x + col * (Int.tdiv (r.width - spacing * (cols - 1)) cols + spacing),
     r.y + row * (Int.tdiv (r.height - spacing * (rows - 1)) rows + spacing),
     Int.tdiv (r.width - spacing * (cols - 1)) cols,
     Int.tdiv (r.height - spacing * (rows - 1)) rows⟩

/-- Bands are contiguous on the x axis starting at a given coordinate: each
band starts where the previous one ends. -/
def chainedFromX : Int → List Rectangle → Prop
  | _, [] => True
  | cx, b :: rest => b.x = cx ∧ chainedFromX (b.x + b.width) rest

/-- Bands are contiguous on the y axis starting at a given coordinate. -/
def chainedFromY : Int → List Rectangle → Prop
  | _, [] => True
  | cy, b :: rest => b.y = cy ∧ chainedFromY (b.y + b.height) rest

/-- Truncation toward zero is the identity on integral rational values. -/
theorem cppTrunc_intCast (n : Int) : cppTrunc ((n : ℚ)) = n := by
  simp [cppTrunc, Rat.num_intCast, Rat.den_intCast]

/-- Truncation computed through an integral value. -/
theorem cppTrunc_eq_of_eq_intCast {q : ℚ} {n : Int} (h : q = ((n : Int) : ℚ)) :
    cppTrunc q = n := by
  rw [h, cppTrunc_intCast]

/-- The accumulating fold the C++ loops use for the ratio total is the list
sum. -/
theorem foldl_add_eq_sum (l : List ℚ) (acc : ℚ) : List.foldl (· + ·) acc l = acc + l.sum := by
  induction l generalizing acc with
  | nil => simp
  | cons q t ih => simp [ih, add_assoc]

/-- The horizontal band walk produces one band per ratio. -/
theorem subdivideHGo_length (r : Rectangle) (total : ℚ) (l : List ℚ) :
    ∀ cx : Int, (Rectangle.subdivideHGo r total cx l).length = l.length := by
  induction l with
  | nil => intro cx; rfl
  | cons q t ih =>
    intro cx
    cases t with
    | nil => rfl
    | cons q2 t2 =>
      simp only [Rectangle.subdivideHGo, List.length_cons]
      rw [ih]
      simp

/-- The horizontal band widths telescope: they sum to the distance from the
start coordinate to the right edge. -/
theorem subdivideHGo_sum (r : Rectangle) (total : ℚ) (l : List ℚ) :
    ∀ cx : Int, l ≠ [] →
      (List.map Rectangle.width (Rectangle.subdivideHGo r total cx l)).sum =
        r.x + r.width - cx := by
  induction l with
  | nil => intro cx h; exact absurd rfl h
  | cons q t ih =>
    intro cx _
    cases t with
    | nil => simp [Rectangle.subdivideHGo]
    | cons q2 t2 =>
      simp only [Rectangle.subdivideHGo, List.map_cons, List.sum_cons]
      rw [ih _ (by simp)]
      ring

/-- Every horizontal band keeps the source rectangle's `y` and `height`. -/
theorem subdivideHGo_mem (r : Rectangle) (total : ℚ) (l : List ℚ) :
    ∀ (cx : Int) (b : Rectangle), b ∈ Rectangle.subdivideHGo r total cx l →
      b.y = r.y ∧ b.height = r.height := by
  induction l with
  | nil => intro cx b h; simp [Rectangle.subdivideHGo] at h
  | cons q t ih =>
    intro cx b hb
    cases t with
    | nil =>
      simp only [Rectangle.subdivideHGo, List.mem_singleton] at hb
      subst hb
      exact ⟨rfl, rfl⟩
    | cons q2 t2 =>
      simp only [Rectangle.subdivideHGo, List.mem_cons] at hb
      rcases hb with hb | hb
      · subst hb; exact ⟨rfl, rfl⟩
      · exact ih _ _ hb

/-- The horizontal bands are contiguous from the start coordinate. -/
theorem subdivideHGo_chain (r : Rectangle) (total : ℚ) (l : List ℚ) :
    ∀ cx : Int, chainedFromX cx (Rectangle.subdivideHGo r total cx l) := by
  induction l with
  | nil => intro cx; trivial
  | cons q t ih =>
    intro cx
    cases t with
    | nil => exact ⟨rfl, trivial⟩
    | cons q2 t2 => exact ⟨rfl, ih _⟩

/-- The vertical band walk produces one band per ratio. -/
theorem subdivideVGo_length (r : Rectangle) (total : ℚ) (l : List ℚ) :
    ∀ cy : Int, (Rectangle.subdivideVGo r total cy l).length = l.length := by
  induction l with
  | nil => intro cy; rfl
  | cons q t ih =>
    intro cy
    cases t with
    | nil => rfl
    | cons q2 t2 =>
      simp only [Rectangle.subdivideVGo, List.length_cons]
      rw [ih]
      simp

/-- The vertical band heights telescope to the bottom edge. -/
theorem subdivideVGo_sum (r : Rectangle) (total : ℚ) (l : List ℚ) :
    ∀ cy : Int, l ≠ [] →
      (List.map Rectangle.height (Rectangle.subdivideVGo r total cy l)).sum =
        r.y + r.height - cy := by
  induction l with
  | nil => intro cy h; exact absurd rfl h
  | cons q t ih =>
    intro cy _
    cases t with
    | nil => simp [Rectangle.subdivideVGo]
    | cons q2 t2 =>
      simp only [Rectangle.subdivideVGo, List.map_cons, List.sum_cons]
      rw [ih _ (by simp)]
      ring

/-- Every vertical band keeps the source rectangle's `x` and `width`. -/
theorem subdivideVGo_mem (r : Rectangle) (total : ℚ) (l : List ℚ) :
    ∀ (cy : Int) (b : Rectangle), b ∈ Rectangle.subdivideVGo r total cy l →
      b.x = r.x ∧ b.width = r.width := by
  induction l with
  | nil => intro cy b h; simp [Rectangle.subdivideVGo] at h
  | cons q t ih =>
    intro cy b hb
    cases t with
    | nil =>
      simp only [Rectangle.subdivideVGo, List.mem_singleton] at hb
      subst hb
      exact ⟨rfl, rfl⟩
    | cons q2 t2 =>
      simp only [Rectangle.subdivideVGo, List.mem_cons] at hb
      rcases hb with hb | hb
      · subst hb; exact ⟨rfl, rfl⟩
      · exact ih _ _ hb

/-- The vertical bands are contiguous from the start coordinate. -/
theorem subdivideVGo_chain (r : Rectangle) (total : ℚ) (l : List ℚ) :
    ∀ cy : Int, chainedFromY cy (Rectangle.subdivideVGo r total cy l) := by
  induction l with
  | nil => intro cy; trivial
  | cons q t ih =>
    intro cy
    cases t with
    | nil => exact ⟨rfl, trivial⟩
    | cons q2 t2 => exact ⟨rfl, ih _⟩

/-- With a non-empty ratio list of positive sum, the guards of
`SubdivideHorizontal` pass and it is the band walk from `x`. -/
theorem subdivideHorizontal_eq_go (r : Rectangle) (ratios : List ℚ) (h1 : ratios ≠ [])
    (h2 : 0 < ratios.sum) :
    Rectangle.SubdivideHorizontal r ratios =
      Rectangle.subdivideHGo r (List.foldl (· + ·) (0 : ℚ) ratios) r.x ratios := by
  have ht : ¬ List.foldl (· + ·) (0 : ℚ) ratios ≤ 0 := by
    rw [foldl_add_eq_sum]
    simpa using not_le.mpr h2
  unfold Rectangle.SubdivideHorizontal
  rw [if_neg h1, if_neg ht]

/-- With a non-empty ratio list of positive sum, the guards of
`SubdivideVertical` pass and it is the band walk from `y`. -/
theorem subdivideVertical_eq_go (r : Rectangle) (ratios : List ℚ) (h1 : ratios ≠ [])
    (h2 : 0 < ratios.sum) :
    Rectangle.SubdivideVertical r ratios =
      Rectangle.subdivideVGo r (List.foldl (· + ·) (0 : ℚ) ratios) r.y ratios := by
  have ht : ¬ List.foldl (· + ·) (0 : ℚ) ratios ≤ 0 := by
    rw [foldl_add_eq_sum]
    simpa using not_le.mpr h2
  unfold Rectangle.SubdivideVertical
  rw [if_neg h1, if_neg ht]

/-- C1: for every rectangle with width `W >= 0` and every non-empty list of
positive ratios, `SubdivideHorizontal` returns one band per ratio, the bands
are contiguous starting at the source's left edge, all bands keep the source's
`y` and `height`, and the band widths sum to exactly `W` (the final band
absorbs the truncation remainder); the same tiling invariant holds for
`SubdivideVertical` on the height axis; and subdividing `(0,0,400,300)` with
ratios `[1,2,1]` yields bands of width `100, 200, 100` at `x = 0, 100, 300`. -/
theorem C1_subdivide_exact_tiling :
    (∀ (r : Rectangle) (ratios : List ℚ), 0 ≤ r.width → ratios ≠ [] →
      (∀ q ∈ ratios, 0 < q) →
      (Rectangle.SubdivideHorizontal r ratios).length = ratios.length ∧
      chainedFromX r.x (Rectangle.SubdivideHorizontal r ratios) ∧
      (∀ b ∈ Rectangle.SubdivideHorizontal r ratios, b.y = r.y ∧ b.height = r.height) ∧
      (List.map Rectangle.width (Rectangle.SubdivideHorizontal r ratios)).sum = r.width) ∧
    (∀ (r : Rectangle) (ratios : List ℚ), 0 ≤ r.height → ratios ≠ [] →
      (∀ q ∈ ratios, 0 < q) →
      (Rectangle.SubdivideVertical r ratios).length = ratios.length ∧
      chainedFromY r.y (Rectangle.SubdivideVertical r ratios) ∧
      (∀ b ∈ Rectangle.SubdivideVertical r ratios, b.x = r.x ∧ b.width = r.width) ∧
      (List.map Rectangle.height (Rectangle.SubdivideVertical r ratios)).sum = r.height) ∧
    Rectangle.SubdivideHorizontal ⟨0, 0, 400, 300⟩ [1, 2, 1] =
      [⟨0, 0, 100, 300⟩, ⟨100, 0, 200, 300⟩, ⟨300, 0, 100, 300⟩] := by
  refine ⟨?_, ?_, ?_⟩
  · intro r ratios _hw hne hpos
    have hsum : 0 < ratios.sum := List.sum_pos ratios hpos hne
    rw [subdivideHorizontal_eq_go r ratios hne hsum]
    refine ⟨subdivideHGo_length r _ ratios r.x, subdivideHGo_chain r _ ratios r.x,
      subdivideHGo_mem r _ ratios r.x, ?_⟩
    rw [subdivideHGo_sum r _ ratios r.x hne]
    omega
  · intro r ratios _hh hne hpos
    have hsum : 0 < ratios.sum := List.sum_pos ratios hpos hne
    rw [subdivideVertical_eq_go r ratios hne hsum]
    refine ⟨subdivideVGo_length r _ ratios r.y, subdivideVGo_chain r _ ratios r.y,
      subdivideVGo_mem r _ ratios r.y, ?_⟩
    rw [subdivideVGo_sum r _ ratios r.y hne]
    omega
  · have hfold : List.foldl (· + ·) (0 : ℚ) [1, 2, 1] = 4 := by
      norm_num [List.foldl]
    have w1 : cppTrunc ((100 : ℚ)) = 100 := cppTrunc_eq_of_eq_intCast (by norm_num)
    have w2 : cppTrunc ((200 : ℚ)) = 200 := cppTrunc_eq_of_eq_intCast (by norm_num)
    unfold Rectangle.SubdivideHorizontal
    rw [hfold]
    norm_num [Rectangle.subdivideHGo, w1, w2]
    intro h
    simp at h

/-- Witness for C1 at the rectangle `(2,3,10,7)` and ratio list `[1,1]`. -/
theorem C1_subdivide_exact_tiling_witness :
    ((0 : Int) ≤ 10 ∧ ([1, 1] : List ℚ) ≠ [] ∧ (∀ q ∈ ([1, 1] : List ℚ), 0 < q)) ∧
    (Rectangle.SubdivideHorizontal ⟨2, 3, 10, 7⟩ [1, 1]).length = 2 ∧
    chainedFromX 2 (Rectangle.SubdivideHorizontal ⟨2, 3, 10, 7⟩ [1, 1]) ∧
    (∀ b ∈ Rectangle.SubdivideHorizontal ⟨2, 3, 10, 7⟩ [1, 1], b.y = 3 ∧ b.height = 7) ∧
    (List.map Rectangle.width (Rectangle.SubdivideHorizontal ⟨2, 3, 10, 7⟩ [1, 1])).sum = 10 := by
  have h := C1_subdivide_exact_tiling.1 ⟨2, 3, 10, 7⟩ [1, 1] (by norm_num) (by simp)
    (by norm_num)
  exact ⟨⟨by norm_num, by simp, by norm_num⟩, h.1, h.2.1, h.2.2.1, h.2.2.2⟩

/-- C9: degenerate inputs give well-defined empty results: `CreateGrid` returns
the empty rectangle `(0,0,0,0)` whenever `rows <= 0`, `cols <= 0`, `row < 0`,
`col < 0`, `row >= rows` or `col >= cols`; `SubdivideHorizontal` and
`SubdivideVertical` return the empty list on an empty ratio list or a ratio
list whose sum is non-positive. -/
theorem C9_degenerate_inputs_empty_results :
    (∀ (r : Rectangle) (row col rows cols spacing : Int),
      rows ≤ 0 ∨ cols ≤ 0 ∨ row < 0 ∨ col < 0 ∨ rows ≤ row ∨ cols ≤ col →
      Rectangle.CreateGrid r row col rows cols spacing = ⟨0, 0, 0, 0⟩) ∧
    (∀ r : Rectangle, Rectangle.SubdivideHorizontal r [] = [] ∧
      Rectangle.SubdivideVertical r [] = []) ∧
    (∀ (r : Rectangle) (ratios : List ℚ), ratios.sum ≤ 0 →
      Rectangle.SubdivideHorizontal r ratios = [] ∧
      Rectangle.SubdivideVertical r ratios = []) := by
  refine ⟨?_, ?_, ?_⟩
  · intro r row col rows cols spacing h
    unfold Rectangle.CreateGrid
    rw [if_pos h]
  · intro r
    exact ⟨by simp [Rectangle.SubdivideHorizontal], by simp [Rectangle.SubdivideVertical]⟩
  · intro r ratios h
    constructor
    · by_cases he : ratios = []
      · simp [Rectangle.SubdivideHorizontal, he]
      · unfold Rectangle.SubdivideHorizontal
        rw [if_neg he, if_pos (by rw [foldl_add_eq_sum]; simpa using h)]
    · by_cases he : ratios = []
      · simp [Rectangle.SubdivideVertical, he]
      · unfold Rectangle.SubdivideVertical
        rw [if_neg he, if_pos (by rw [foldl_add_eq_sum]; simpa using h)]

/-- Witness for C9: an out-of-range grid cell and a non-positive ratio list. -/
theorem C9_degenerate_inputs_empty_results_witness :
    ((3 : Int) ≤ 0 ∨ (3 : Int) ≤ 0 ∨ (5 : Int) < 0 ∨ (0 : Int) < 0 ∨ (3 : Int) ≤ 5 ∨
      (3 : Int) ≤ 0) ∧
    Rectangle.CreateGrid ⟨0, 0, 100, 100⟩ 5 0 3 3 0 = ⟨0, 0, 0, 0⟩ ∧
    Rectangle.SubdivideHorizontal ⟨0, 0, 100, 100⟩ [] = [] ∧
    ([(-1 : ℚ)] : List ℚ).sum ≤ 0 ∧
    Rectangle.SubdivideHorizontal ⟨0, 0, 100, 100⟩ [(-1 : ℚ)] = [] ∧
    Rectangle.SubdivideVertical ⟨0, 0, 100, 100⟩ [(-1 : ℚ)] = [] := by
  have hq : ([(-1 : ℚ)] : List ℚ).sum ≤ 0 := by norm_num
  have h3 := C9_degenerate_inputs_empty_results.2.2 ⟨0, 0, 100, 100⟩ [(-1 : ℚ)] hq
  exact ⟨by norm_num,
    C9_degenerate_inputs_empty_results.1 ⟨0, 0, 100, 100⟩ 5 0 3 3 0 (by norm_num),
    (C9_degenerate_inputs_empty_results.2.1 ⟨0, 0, 100, 100⟩).1, hq, h3.1, h3.2⟩

/-- The conditional `std::min` on `int` is the mathematical minimum. -/
theorem stdMinInt_eq_min (a b : Int) : stdMinInt a b = min a b := by
  unfold stdMinInt
  split <;> omega

/-- The conditional `std::max` on `int` is the mathematical maximum. -/
theorem stdMaxInt_eq_max (a b : Int) : stdMaxInt a b = max a b := by
  unfold stdMaxInt
  split <;> omega

/-- With ordered limits, `std::clamp` on `int` is clamping into the interval. -/
theorem stdClampInt_eq (v lo hi : Int) (h : lo ≤ hi) :
    stdClampInt v lo hi = max lo (min v hi) := by
  unfold stdClampInt
  split
  · omega
  · split <;> omega

/-- With ordered limits, `std::clamp` on `int` lands in the interval. -/
theorem stdClampInt_bounds (v lo hi : Int) (h : lo ≤ hi) :
    lo ≤ stdClampInt v lo hi ∧ stdClampInt v lo hi ≤ hi := by
  unfold stdClampInt
  split
  · omega
  · split <;> omega

/-- C4 counterexample: `Union` with an empty receiver returns the (empty)
argument rather than the receiver, and the union scenario of the claim gives
height `50`, not `60`. -/
theorem C4_union_counterexample :
    Rectangle.Union ⟨5, 5, 0, 10⟩ ⟨0, 0, 0, 0⟩ ≠ ⟨5, 5, 0, 10⟩ ∧
    Rectangle.Union ⟨10, 20, 100, 50⟩ ⟨60, 30, 80, 40⟩ ≠ ⟨10, 20, 130, 60⟩ := by
  decide

/-- C4 (amended): an empty argument acts as identity only for a non-empty
receiver; an empty receiver returns the argument unchanged instead; and
`Rectangle(10,20,100,50).Union(Rectangle(60,30,80,40))` equals
`Rectangle(10,20,130,50)`. -/
theorem C4_union_empty_identity :
    (∀ a b : Rectangle, Rectangle.IsEmpty a = false → Rectangle.IsEmpty b = true →
      Rectangle.Union a b = a) ∧
    (∀ a b : Rectangle, Rectangle.IsEmpty a = true → Rectangle.Union a b = b) ∧
    Rectangle.Union ⟨10, 20, 100, 50⟩ ⟨60, 30, 80, 40⟩ = ⟨10, 20, 130, 50⟩ := by
  refine ⟨?_, ?_, by decide⟩
  · intro a b ha hb
    simp [Rectangle.Union, ha, hb]
  · intro a b ha
    simp [Rectangle.Union, ha]

/-- Witness for C4 with a non-empty receiver and an empty one. -/
theorem C4_union_empty_identity_witness :
    (Rectangle.IsEmpty ⟨10, 20, 100, 50⟩ = false ∧ Rectangle.IsEmpty ⟨7, 7, 0, 5⟩ = true ∧
      Rectangle.Union ⟨10, 20, 100, 50⟩ ⟨7, 7, 0, 5⟩ = ⟨10, 20, 100, 50⟩) ∧
    (Rectangle.IsEmpty ⟨7, 7, 0, 5⟩ = true ∧
      Rectangle.Union ⟨7, 7, 0, 5⟩ ⟨1, 2, 3, 4⟩ = ⟨1, 2, 3, 4⟩) :=
  ⟨⟨by decide, by decide, C4_union_empty_identity.1 ⟨10, 20, 100, 50⟩ ⟨7, 7, 0, 5⟩
      (by decide) (by decide)⟩,
   ⟨by decide, C4_union_empty_identity.2.1 ⟨7, 7, 0, 5⟩ ⟨1, 2, 3, 4⟩ (by decide)⟩⟩

/-- C5: `Intersection` is the overlap rectangle exactly when the open intervals
overlap strictly on both axes, and the canonical empty rectangle `(0,0,0,0)`
otherwise (touching edges included); an empty operand gives an empty result;
and the scenario `(10,20,100,50) ∩ (60,30,80,40) = (60,30,50,40)` holds. -/
theorem C5_intersection_overlap :
    (∀ a b : Rectangle,
      max a.x b.x < min (a.x + a.width) (b.x + b.width) →
      max a.y b.y < min (a.y + a.height) (b.y + b.height) →
      Rectangle.Intersection a b =
        ⟨max a.x b.x, max a.y b.y,
         min (a.x + a.width) (b.x + b.width) - max a.x b.x,
         min (a.y + a.height) (b.y + b.height) - max a.y b.y⟩) ∧
    (∀ a b : Rectangle,
      min (a.x + a.width) (b.x + b.width) ≤ max a.x b.x ∨
      min (a.y + a.height) (b.y + b.height) ≤ max a.y b.y →
      Rectangle.Intersection a b = ⟨0, 0, 0, 0⟩) ∧
    (∀ a b : Rectangle, Rectangle.IsEmpty b = true →
      Rectangle.IsEmpty (Rectangle.Intersection a b) = true) ∧
    Rectangle.Intersection ⟨10, 20, 100, 50⟩ ⟨60, 30, 80, 40⟩ = ⟨60, 30, 50, 40⟩ := by
  refine ⟨?_, ?_, ?_, by decide⟩
  · intro a b hx hy
    unfold Rectangle.Intersection
    rw [if_neg (by push_neg; exact ⟨hx, hy⟩)]
  · intro a b h
    unfold Rectangle.Intersection
    rw [if_pos h]
  · intro a b hb
    have hb' : b.width ≤ 0 ∨ b.height ≤ 0 := by
      simpa [Rectangle.IsEmpty] using hb
    have hcond : min (a.x + a.width) (b.x + b.width) ≤ max a.x b.x ∨
        min (a.y + a.height) (b.y + b.height) ≤ max a.y b.y := by
      rcases hb' with h | h
      · left; omega
      · right; omega
    unfold Rectangle.Intersection
    rw [if_pos hcond]
    rfl

/-- Witness for C5: a touching pair yields the empty rectangle and an empty
operand yields an empty intersection. -/
theorem C5_intersection_overlap_witness :
    ((min ((0 : Int) + 10) (10 + 10) ≤ max (0 : Int) 10 ∨
        min ((0 : Int) + 10) (0 + 10) ≤ max (0 : Int) 0) ∧
      Rectangle.Intersection ⟨0, 0, 10, 10⟩ ⟨10, 0, 10, 10⟩ = ⟨0, 0, 0, 0⟩) ∧
    (Rectangle.IsEmpty ⟨1, 1, 0, 9⟩ = true ∧
      Rectangle.IsEmpty (Rectangle.Intersection ⟨2, 2, 5, 5⟩ ⟨1, 1, 0, 9⟩) = true) := by
  have hc : min ((0 : Int) + 10) (10 + 10) ≤ max (0 : Int) 10 ∨
      min ((0 : Int) + 10) (0 + 10) ≤ max (0 : Int) 0 := by
    left; decide
  exact ⟨⟨hc, C5_intersection_overlap.2.1 ⟨0, 0, 10, 10⟩ ⟨10, 0, 10, 10⟩ hc⟩,
    ⟨by decide, C5_intersection_overlap.2.2.1 ⟨2, 2, 5, 5⟩ ⟨1, 1, 0, 9⟩ (by decide)⟩⟩

/-- C6: `Contains` is the half-open containment test, inclusive on the
left/top edge and exclusive on the right/bottom edge; horizontally or
vertically adjacent rectangles share no contained point at all; and
`(50,50,100,100)` contains `(50,50)` but not `(150,150)`. -/
theorem C6_contains_half_open :
    (∀ (r : Rectangle) (px py : Int),
      Rectangle.Contains r px py = true ↔
        r.x ≤ px ∧ px < r.x + r.width ∧ r.y ≤ py ∧ py < r.y + r.height) ∧
    (∀ (a b : Rectangle) (px py : Int), b.x = a.x + a.width →
      ¬(Rectangle.Contains a px py = true ∧ Rectangle.Contains b px py = true)) ∧
    (∀ (a b : Rectangle) (px py : Int), b.y = a.y + a.height →
      ¬(Rectangle.Contains a px py = true ∧ Rectangle.Contains b px py = true)) ∧
    Rectangle.Contains ⟨50, 50, 100, 100⟩ 50 50 = true ∧
    Rectangle.Contains ⟨50, 50, 100, 100⟩ 150 150 = false := by
  refine ⟨?_, ?_, ?_, by decide, by decide⟩
  · intro r px py
    simp [Rectangle.Contains, and_assoc]
  · intro a b px py hadj hcc
    rcases hcc with ⟨hca, hcb⟩
    simp only [Rectangle.Contains, Bool.and_eq_true, decide_eq_true_eq] at hca hcb
    omega
  · intro a b px py hadj hcc
    rcases hcc with ⟨hca, hcb⟩
    simp only [Rectangle.Contains, Bool.and_eq_true, decide_eq_true_eq] at hca hcb
    omega

/-- Witness for C6: adjacent rectangles at the shared boundary pixel. -/
theorem C6_contains_half_open_witness :
    ((10 : Int) = 0 + 10 ∧
      ¬(Rectangle.Contains ⟨0, 0, 10, 10⟩ 10 5 = true ∧
        Rectangle.Contains ⟨10, 0, 10, 10⟩ 10 5 = true)) ∧
    ((10 : Int) = 0 + 10 ∧
      ¬(Rectangle.Contains ⟨0, 0, 10, 10⟩ 5 10 = true ∧
        Rectangle.Contains ⟨0, 10, 10, 10⟩ 5 10 = true)) :=
  ⟨⟨by decide, C6_contains_half_open.2.1 ⟨0, 0, 10, 10⟩ ⟨10, 0, 10, 10⟩ 10 5 (by decide)⟩,
   ⟨by decide, C6_contains_half_open.2.2.1 ⟨0, 0, 10, 10⟩ ⟨0, 10, 10, 10⟩ 5 10 (by decide)⟩⟩

/-- C8: `AspectRatio` of any rectangle with height `0` is exactly `0`; in
particular the aspect ratio of `(0,0,100,0)` is `0`. The model is a total
function into `ℚ`, so no division by zero, infinity or error is possible. -/
theorem C8_aspect_zero_height :
    (∀ r : Rectangle, r.height = 0 → Rectangle.AspectRatio r = 0) ∧
    Rectangle.AspectRatio ⟨0, 0, 100, 0⟩ = 0 := by
  constructor
  · intro r h
    unfold Rectangle.AspectRatio
    rw [if_pos h]
  · unfold Rectangle.AspectRatio
    rw [if_pos rfl]

/-- Witness for C8 at the rectangle `(1,2,3,0)`. -/
theorem C8_aspect_zero_height_witness :
    (⟨1, 2, 3, 0⟩ : Rectangle).height = 0 ∧ Rectangle.AspectRatio ⟨1, 2, 3, 0⟩ = 0 :=
  ⟨rfl, C8_aspect_zero_height.1 ⟨1, 2, 3, 0⟩ rfl⟩

/-- C3 counterexample: `ClampTo` does reduce the size when the rectangle is
larger than the bounds: clamping `(0,0,100,100)` to `(0,0,50,50)` gives width
`50`, not `100`. -/
theorem C3_clampTo_counterexample :
    (Rectangle.ClampTo ⟨0, 0, 100, 100⟩ ⟨0, 0, 50, 50⟩).width ≠ 100 := by
  decide

/-- C3 (amended): `ClampTo` clamps each extent to the minimum of the two
extents, so the size is preserved exactly when the rectangle is no larger than
the bounds on both axes; in that case only the position changes, clamped into
`[bounds.min, bounds.max - size]`, which places the result fully inside the
bounds. -/
theorem C3_clampTo_translates_when_fits :
    (∀ r b : Rectangle,
      (Rectangle.ClampTo r b).width = min r.width b.width ∧
      (Rectangle.ClampTo r b).height = min r.height b.height) ∧
    (∀ r b : Rectangle, r.width ≤ b.width → r.height ≤ b.height →
      (Rectangle.ClampTo r b).width = r.width ∧
      (Rectangle.ClampTo r b).height = r.height ∧
      (Rectangle.ClampTo r b).x = max b.x (min r.x (b.x + b.width - r.width)) ∧
      (Rectangle.ClampTo r b).y = max b.y (min r.y (b.y + b.height - r.height)) ∧
      b.x ≤ (Rectangle.ClampTo r b).x ∧
      (Rectangle.ClampTo r b).x + r.width ≤ b.x + b.width ∧
      b.y ≤ (Rectangle.ClampTo r b).y ∧
      (Rectangle.ClampTo r b).y + r.height ≤ b.y + b.height) := by
  constructor
  · intro r b
    exact ⟨stdMinInt_eq_min r.width b.width, stdMinInt_eq_min r.height b.height⟩
  · intro r b hw hh
    have hxb := stdClampInt_bounds r.x b.x (b.x + b.width - r.width) (by omega)
    have hyb := stdClampInt_bounds r.y b.y (b.y + b.height - r.height) (by omega)
    have hmw := stdMinInt_eq_min r.width b.width
    have hmh := stdMinInt_eq_min r.height b.height
    refine ⟨?_, ?_, stdClampInt_eq r.x b.x (b.x + b.width - r.width) (by omega),
      stdClampInt_eq r.y b.y (b.y + b.height - r.height) (by omega),
      ?_, ?_, ?_, ?_⟩
    · show stdMinInt r.width b.width = r.width
      omega
    · show stdMinInt r.height b.height = r.height
      omega
    · exact hxb.1
    · have := hxb.2
      show stdClampInt r.x b.x (b.x + b.width - r.width) + r.width ≤ b.x + b.width
      omega
    · exact hyb.1
    · have := hyb.2
      show stdClampInt r.y b.y (b.y + b.height - r.height) + r.height ≤ b.y + b.height
      omega

/-- Witness for C3 with a rectangle that fits inside the bounds. -/
theorem C3_clampTo_translates_when_fits_witness :
    ((10 : Int) ≤ 50 ∧ (10 : Int) ≤ 50) ∧
    (Rectangle.ClampTo ⟨90, 90, 10, 10⟩ ⟨0, 0, 50, 50⟩).width = 10 ∧
    (Rectangle.ClampTo ⟨90, 90, 10, 10⟩ ⟨0, 0, 50, 50⟩).height = 10 ∧
    (Rectangle.ClampTo ⟨90, 90, 10, 10⟩ ⟨0, 0, 50, 50⟩).x =
      max (0 : Int) (min 90 (0 + 50 - 10)) ∧
    (Rectangle.ClampTo ⟨90, 90, 10, 10⟩ ⟨0, 0, 50, 50⟩).y =
      max (0 : Int) (min 90 (0 + 50 - 10)) ∧
    (0 : Int) ≤ (Rectangle.ClampTo ⟨90, 90, 10, 10⟩ ⟨0, 0, 50, 50⟩).x ∧
    (Rectangle.ClampTo ⟨90, 90, 10, 10⟩ ⟨0, 0, 50, 50⟩).x + 10 ≤ 0 + 50 ∧
    (0 : Int) ≤ (Rectangle.ClampTo ⟨90, 90, 10, 10⟩ ⟨0, 0, 50, 50⟩).y ∧
    (Rectangle.ClampTo ⟨90, 90, 10, 10⟩ ⟨0, 0, 50, 50⟩).y + 10 ≤ 0 + 50 := by
  have h := C3_clampTo_translates_when_fits.2 ⟨90, 90, 10, 10⟩ ⟨0, 0, 50, 50⟩
    (by decide) (by decide)
  exact ⟨⟨by decide, by decide⟩, h.1, h.2.1, h.2.2.1, h.2.2.2.1, h.2.2.2.2.1,
    h.2.2.2.2.2.1, h.2.2.2.2.2.2.1, h.2.2.2.2.2.2.2⟩

/-- C7 counterexample: `FitInside` of an empty rectangle into a non-empty
container returns the default empty rectangle, not the container. -/
theorem C7_fitInside_counterexample :
    Rectangle.FitInside ⟨0, 0, 0, 0⟩ ⟨1, 1, 5, 5⟩ false ≠ ⟨1, 1, 5, 5⟩ := by
  decide

/-- C7 (amended): when both the rectangle and the container are non-empty,
`FitInside` without aspect-ratio maintenance returns the container exactly;
when either is empty it returns the empty rectangle `(0,0,0,0)` regardless of
the aspect flag. -/
theorem C7_fitInside_no_aspect :
    (∀ r c : Rectangle, Rectangle.IsEmpty r = false → Rectangle.IsEmpty c = false →
      Rectangle.FitInside r c false = c) ∧
    (∀ (r c : Rectangle) (m : Bool),
      Rectangle.IsEmpty r = true ∨ Rectangle.IsEmpty c = true →
      Rectangle.FitInside r c m = ⟨0, 0, 0, 0⟩) := by
  constructor
  · intro r c hr hc
    simp [Rectangle.FitInside, hr, hc]
  · intro r c m h
    rcases h with h | h <;> simp [Rectangle.FitInside, h]

/-- Witness for C7 with two non-empty rectangles and one empty rectangle. -/
theorem C7_fitInside_no_aspect_witness :
    (Rectangle.IsEmpty ⟨0, 0, 30, 40⟩ = false ∧ Rectangle.IsEmpty ⟨1, 1, 5, 5⟩ = false ∧
      Rectangle.FitInside ⟨0, 0, 30, 40⟩ ⟨1, 1, 5, 5⟩ false = ⟨1, 1, 5, 5⟩) ∧
    ((Rectangle.IsEmpty ⟨0, 0, 0, 7⟩ = true ∨ Rectangle.IsEmpty ⟨1, 1, 5, 5⟩ = true) ∧
      Rectangle.FitInside ⟨0, 0, 0, 7⟩ ⟨1, 1, 5, 5⟩ true = ⟨0, 0, 0, 0⟩) :=
  ⟨⟨by decide, by decide,
      C7_fitInside_no_aspect.1 ⟨0, 0, 30, 40⟩ ⟨1, 1, 5, 5⟩ (by decide) (by decide)⟩,
   ⟨Or.inl (by decide),
      C7_fitInside_no_aspect.2 ⟨0, 0, 0, 7⟩ ⟨1, 1, 5, 5⟩ true (Or.inl (by decide))⟩⟩

/-- The `SizeValue` struct of include/ImGuiForms/Core/Size.h: a float value
together with a relative flag. -/
structure SizeValue where
  value : ℚ
  isRelative : Bool
deriving DecidableEq

/-- `SizeValue::Content()`: `SizeValue(-1.0f, false)`. -/
def SizeValue.Content : SizeValue := ⟨-1, false⟩

/-- `SizeValue::Parent()`: `SizeValue(1.0f, true)`. -/
def SizeValue.Parent : SizeValue := ⟨1, true⟩

/-- `SizeValue::Absolute(int pixels)`: `std::max(pixels, -1)` cast to float,
stored as an absolute value. -/
def SizeValue.Absolute (pixels : Int) : SizeValue :=
  ⟨((stdMaxInt pixels (-1) : Int) : ℚ), false⟩

/-- `SizeValue::Relative(float factor)`: `std::clamp(factor, 0, 1)`, stored as
a relative value. -/
def SizeValue.Relative (factor : ℚ) : SizeValue := ⟨stdClampQ factor 0 1, true⟩

/-- `SizeValue::IsAbsolute`. -/
def SizeValue.IsAbsolute (sv : SizeValue) : Bool := !sv.isRelative

/-- `SizeValue::IsContentAligned`: absolute and `(int)value == -1`. -/
def SizeValue.IsContentAligned (sv : SizeValue) : Bool :=
  SizeValue.IsAbsolute sv && decide (cppTrunc sv.value = -1)

/-- `SizeValue::IsParentAligned`: relative and `(int)value == 1`. -/
def SizeValue.IsParentAligned (sv : SizeValue) : Bool :=
  sv.isRelative && decide (cppTrunc sv.value = 1)

/-- The `Size` struct of include/ImGuiForms/Core/Size.h: a width and a height
`SizeValue`. -/
structure Size where
  width : SizeValue
  height : SizeValue
deriving DecidableEq

/-- `Component::GetDimension` (src/Core/Component.cpp): an absolute value is
capped at the parent extent (`std::min` then a truncating cast); a relative
value gives `std::floor(value * maxValue * correction)`, whose truncating cast
back to `int` is the floor itself since the floor is integral. -/
def Component.GetDimension (sizeValue : SizeValue) (maxValue : Int) (correction : ℚ) : Int :=
  if SizeValue.IsAbsolute sizeValue then
    cppTrunc (stdMinQ sizeValue.value ((maxValue : Int) : ℚ))
  else
    ⌊sizeValue.value * ((maxValue : Int) : ℚ) * correction⌋

/-- `Component::GetWidth` (include/ImGuiForms/Core/Component.h): a
content-aligned width resolves to the measured content width (the virtual
`GetContentWidth`, passed here as a value), anything else through
`GetDimension` against the parent width. -/
def Component.GetWidth (size : Size) (contentWidth parentWidth : Int) (correction : ℚ) : Int :=
  if SizeValue.IsContentAligned size.width then contentWidth
  else Component.GetDimension size.width parentWidth correction

/-- `Component::GetHeight` (include/ImGuiForms/Core/Component.h). -/
def Component.GetHeight (size : Size) (contentHeight parentHeight : Int) (correction : ℚ) : Int :=
  if SizeValue.IsContentAligned size.height then contentHeight
  else Component.GetDimension size.height parentHeight correction

/-- The conditional `std::min` on integral rational values is the cast of the
integer minimum. -/
theorem stdMinQ_intCast (a b : Int) : stdMinQ ((a : ℚ)) ((b : ℚ)) = ((min a b : Int) : ℚ) := by
  unfold stdMinQ
  by_cases h : (b : ℚ) < (a : ℚ)
  · rw [if_pos h, min_eq_right (le_of_lt (by exact_mod_cast h))]
  · rw [if_neg h, min_eq_left (by exact_mod_cast not_lt.mp h)]

/-- For a non-negative pixel count the clamp in `Absolute` is the identity. -/
theorem absolute_eq_of_nonneg (p : Int) (hp : 0 ≤ p) :
    SizeValue.Absolute p = ⟨(p : ℚ), false⟩ := by
  unfold SizeValue.Absolute
  have h1 : stdMaxInt p (-1) = p := by
    unfold stdMaxInt
    split <;> omega
  rw [h1]

/-- For a factor already in `[0,1]` the clamp in `Relative` is the identity. -/
theorem relative_eq_of_mem (f : ℚ) (h0 : 0 ≤ f) (h1 : f ≤ 1) :
    SizeValue.Relative f = ⟨f, true⟩ := by
  unfold SizeValue.Relative stdClampQ
  rw [if_neg (not_lt.mpr h0), if_neg (not_lt.mpr h1)]

/-- A non-negative absolute size value is not content-aligned. -/
theorem isContentAligned_abs_false (p : Int) (hp : 0 ≤ p) :
    SizeValue.IsContentAligned ⟨(p : ℚ), false⟩ = false := by
  simp only [SizeValue.IsContentAligned, SizeValue.IsAbsolute, Bool.not_false,
    Bool.true_and, cppTrunc_intCast, decide_eq_false_iff_not]
  omega

/-- The content sentinel is content-aligned. -/
theorem isContentAligned_content : SizeValue.IsContentAligned SizeValue.Content = true := by
  have h1 : cppTrunc ((-1 : ℚ)) = -1 := cppTrunc_eq_of_eq_intCast (by norm_num)
  simp [SizeValue.IsContentAligned, SizeValue.IsAbsolute, SizeValue.Content, h1]

/-- C2: the resolved extent per axis is `min(v, parentExtent)` for an absolute
policy `Absolute(v)` with `v >= 0` (so distinct from the content sentinel),
`floor(f * parentExtent * correction)` for a relative policy `Relative(f)`
with `f` in `[0,1]`, and the measured intrinsic content extent for the
`Content` policy; in particular a node sized `Relative(1/2)` on both axes in a
`400x300` parent resolves to `200x150` whatever its content measures. -/
theorem C2_size_policy_resolution :
    (∀ (p : Int), 0 ≤ p → ∀ (h : SizeValue) (cw pw : Int) (corr : ℚ),
      Component.GetWidth ⟨SizeValue.Absolute p, h⟩ cw pw corr = min p pw) ∧
    (∀ (f : ℚ), 0 ≤ f → f ≤ 1 → ∀ (h : SizeValue) (cw pw : Int) (corr : ℚ),
      Component.GetWidth ⟨SizeValue.Relative f, h⟩ cw pw corr =
        ⌊f * ((pw : Int) : ℚ) * corr⌋) ∧
    (∀ (h : SizeValue) (cw pw : Int) (corr : ℚ),
      Component.GetWidth ⟨SizeValue.Content, h⟩ cw pw corr = cw) ∧
    (∀ (p : Int), 0 ≤ p → ∀ (w : SizeValue) (ch ph : Int) (corr : ℚ),
      Component.GetHeight ⟨w, SizeValue.Absolute p⟩ ch ph corr = min p ph) ∧
    (∀ (f : ℚ), 0 ≤ f → f ≤ 1 → ∀ (w : SizeValue) (ch ph : Int) (corr : ℚ),
      Component.GetHeight ⟨w, SizeValue.Relative f⟩ ch ph corr =
        ⌊f * ((ph : Int) : ℚ) * corr⌋) ∧
    (∀ (w : SizeValue) (ch ph : Int) (corr : ℚ),
      Component.GetHeight ⟨w, SizeValue.Content⟩ ch ph corr = ch) ∧
    (∀ cw ch : Int,
      Component.GetWidth ⟨SizeValue.Relative (1 / 2), SizeValue.Relative (1 / 2)⟩
        cw 400 1 = 200 ∧
      Component.GetHeight ⟨SizeValue.Relative (1 / 2), SizeValue.Relative (1 / 2)⟩
        ch 300 1 = 150) := by
  have habs : ∀ (p : Int), 0 ≤ p → ∀ (pw : Int) (corr : ℚ),
      Component.GetDimension ⟨(p : ℚ), false⟩ pw corr = min p pw := by
    intro p hp pw corr
    unfold Component.GetDimension
    rw [if_pos (by rfl), stdMinQ_intCast p pw, cppTrunc_intCast]
  have hrel : ∀ (f : ℚ) (pw : Int) (corr : ℚ),
      Component.GetDimension ⟨f, true⟩ pw corr = ⌊f * ((pw : Int) : ℚ) * corr⌋ := by
    intro f pw corr
    unfold Component.GetDimension
    rfl
  have hhalf : SizeValue.Relative ((1 : ℚ) / 2) = ⟨(1 : ℚ) / 2, true⟩ :=
    relative_eq_of_mem _ (by norm_num) (by norm_num)
  refine ⟨?_, ?_, ?_, ?_, ?_, ?_, ?_⟩
  · intro p hp h cw pw corr
    rw [Component.GetWidth, absolute_eq_of_nonneg p hp]
    simp only [isContentAligned_abs_false p hp, Bool.false_eq_true, if_false]
    exact habs p hp pw corr
  · intro f h0 h1 h cw pw corr
    rw [Component.GetWidth, relative_eq_of_mem f h0 h1]
    exact hrel f pw corr
  · intro h cw pw corr
    rw [Component.GetWidth]
    simp [isContentAligned_content]
  · intro p hp w ch ph corr
    rw [Component.GetHeight, absolute_eq_of_nonneg p hp]
    simp only [isContentAligned_abs_false p hp, Bool.false_eq_true, if_false]
    exact habs p hp ph corr
  · intro f h0 h1 w ch ph corr
    rw [Component.GetHeight, relative_eq_of_mem f h0 h1]
    exact hrel f ph corr
  · intro w ch ph corr
    rw [Component.GetHeight]
    simp [isContentAligned_content]
  · intro cw ch
    have hca : SizeValue.IsContentAligned ⟨(1 : ℚ) / 2, true⟩ = false := rfl
    constructor
    · rw [Component.GetWidth, hhalf]
      simp only [hca, Bool.false_eq_true, if_false]
      rw [hrel ((1 : ℚ) / 2) 400 1]
      norm_num
    · rw [Component.GetHeight, hhalf]
      simp only [hca, Bool.false_eq_true, if_false]
      rw [hrel ((1 : ℚ) / 2) 300 1]
      norm_num

/-- Witness for C2: an absolute, a relative and a content-aligned policy at
concrete inputs. -/
theorem C2_size_policy_resolution_witness :
    ((0 : Int) ≤ 10 ∧
      Component.GetWidth ⟨SizeValue.Absolute 10, SizeValue.Content⟩ 0 400 1 = min 10 400) ∧
    ((0 : ℚ) ≤ 1 / 2 ∧ (1 / 2 : ℚ) ≤ 1 ∧
      Component.GetWidth ⟨SizeValue.Relative (1 / 2), SizeValue.Content⟩ 0 400 1 =
        ⌊(1 / 2 : ℚ) * ((400 : Int) : ℚ) * 1⌋) ∧
    Component.GetWidth ⟨SizeValue.Content, SizeValue.Content⟩ 77 400 1 = 77 ∧
    Component.GetWidth ⟨SizeValue.Relative (1 / 2), SizeValue.Relative (1 / 2)⟩ 0 400 1 = 200 :=
  ⟨⟨by norm_num, C2_size_policy_resolution.1 10 (by norm_num) SizeValue.Content 0 400 1⟩,
   ⟨by norm_num, by norm_num,
     C2_size_policy_resolution.2.1 (1 / 2) (by norm_num) (by norm_num)
       SizeValue.Content 0 400 1⟩,
   C2_size_policy_resolution.2.2.1 SizeValue.Content 77 400 1,
   (C2_size_policy_resolution.2.2.2.2.2.2 0 0).1⟩

/-- C10: every pixel count `p <= -1` is clamped onto the content sentinel:
`Absolute(p)` equals `Content()` and is content-aligned, so an absolute extent
of `-1` pixels distinct from content-sizing is not expressible through the
public constructors. -/
theorem C10_absolute_clamps_to_content :
    (∀ p : Int, p ≤ -1 → SizeValue.Absolute p = SizeValue.Content) ∧
    (∀ p : Int, p ≤ -1 → SizeValue.IsContentAligned (SizeValue.Absolute p) = true) := by
  have habs : ∀ p : Int, p ≤ -1 → SizeValue.Absolute p = SizeValue.Content := by
    intro p hp
    unfold SizeValue.Absolute SizeValue.Content
    have h1 : stdMaxInt p (-1) = -1 := by
      unfold stdMaxInt
      split <;> omega
    rw [h1]
    norm_num
  refine ⟨habs, ?_⟩
  intro p hp
  rw [habs p hp]
  exact isContentAligned_content

/-- Witness for C10 at `p = -5`. -/
theorem C10_absolute_clamps_to_content_witness :
    ((-5 : Int) ≤ -1 ∧ SizeValue.Absolute (-5) = SizeValue.Content) ∧
    SizeValue.IsContentAligned (SizeValue.Absolute (-5)) = true :=
  ⟨⟨by norm_num, C10_absolute_clamps_to_content.1 (-5) (by norm_num)⟩,
   C10_absolute_clamps_to_content.2 (-5) (by norm_num)⟩

end ImGuiForms
